import Mathlib

/-!
Verification of the per-account reliability and caching layer of
`google-multi-account-mcp`: the token-bucket throttle, the exponential-backoff
retry controller, the per-account backoff state tracker and the TTL LRU
response cache, as shallowly embedded Lean definitions translated from the
TypeScript source (`src/utils/rate-limit` and friends).
-/

namespace GMcp

/-! ## Retry controller

Embedding of `getStatusCode`, `isRetryable` and `withRetry` from the rate
limiting module.  An error value is modelled by the fields the classifier
inspects: whether the thrown value is an object, its numeric `status` field,
its nested `response.status` field (present only when `response` is present
and its `status` is numeric), and its numeric `code` field.  The wrapped
asynchronous operation is modelled as a function from the invocation index to
the outcome of that invocation; `withRetry` additionally reports how many
times the operation ran and how many inter-attempt sleeps happened. -/

structure ErrVal where
  isObject : Bool
  status : Option Int
  responseStatus : Option Int
  codeNum : Option Int
  deriving Repr, DecidableEq

structure RetryOptions where
  maxRetries : Nat
  initialDelayMs : Nat
  maxDelayMs : Nat
  backoffMultiplier : Nat
  retryableStatusCodes : List Int
  deriving Repr, DecidableEq

def DEFAULT_RETRY_OPTIONS : RetryOptions :=
  { maxRetries := 5
    initialDelayMs := 1000
    maxDelayMs := 32000
    backoffMultiplier := 2
    retryableStatusCodes := [429, 500, 502, 503, 504] }

/-- `getStatusCode`: check, in order, a direct numeric `status` field, a
nested `response.status` field, then a numeric `code` field. -/
def getStatusCode (e : ErrVal) : Option Int :=
  if e.isObject = false then none
  else
    match e.status with
    | some s => some s
    | none =>
      match e.responseStatus with
      | some s => some s
      | none => e.codeNum

/-- `isRetryable`: an error is retryable iff its extracted status code is in
the configured retryable set; errors with no extractable code are not. -/
def isRetryable (e : ErrVal) (retryableStatusCodes : List Int) : Bool :=
  match getStatusCode e with
  | none => false
  | some s => retryableStatusCodes.contains s

/-- The attempt loop of `withRetry`.  `attempt` is the index of the next
invocation, `remaining` the number of retries still allowed
(`maxRetries - attempt`).  Returns the final outcome together with the number
of invocations of the operation and the number of sleeps performed. -/
def retryLoop {T : Type} (op : Nat → Except ErrVal T) (codes : List Int) :
    (attempt remaining : Nat) → Except ErrVal T × Nat × Nat
  | attempt, 0 =>
    (match op attempt with
     | .ok v => (.ok v, 1, 0)
     | .error e => (.error e, 1, 0))
  | attempt, r + 1 =>
    match op attempt with
    | .ok v => (.ok v, 1, 0)
    | .error e =>
      if isRetryable e codes then
        let rest := retryLoop op codes (attempt + 1) r
        (rest.1, rest.2.1 + 1, rest.2.2 + 1)
      else
        (.error e, 1, 0)

/-- `withRetry`: run the operation up to `maxRetries + 1` times, sleeping
between attempts, stopping early on success or a non-retryable error, and
finally rethrowing the last error unchanged. -/
def withRetry {T : Type} (op : Nat → Except ErrVal T) (opts : RetryOptions) :
    Except ErrVal T × Nat × Nat :=
  retryLoop op opts.retryableStatusCodes 0 opts.maxRetries

/-! ## Per-account backoff state tracker

Embedding of `getAccountRateLimitState`, `recordRateLimitError`,
`recordSuccessfulRequest`, `isAccountInBackoff` and `getBackoffRemainingMs`.
The module-level `Map<string, RateLimitState>` is modelled as a function from
account ids to optional states, and the ambient clock `Date.now()` is passed
explicitly in milliseconds. -/

structure RateLimitState where
  lastError : Option Nat
  consecutiveErrors : Nat
  backoffUntil : Option Nat
  deriving Repr, DecidableEq

def RateLimitState.initial : RateLimitState :=
  { lastError := none, consecutiveErrors := 0, backoffUntil := none }

abbrev RLMap := String → Option RateLimitState

def rlEmpty : RLMap := fun _ => none

def rlUpdate (m : RLMap) (id : String) (s : RateLimitState) : RLMap :=
  fun k => if k = id then some s else m k

/-- `getAccountRateLimitState`: lazily initialise the per-account state on
first reference. Returns the state together with the (possibly extended)
map. -/
def getAccountRateLimitState (m : RLMap) (id : String) :
    RateLimitState × RLMap :=
  match m id with
  | some s => (s, m)
  | none => (RateLimitState.initial, rlUpdate m id RateLimitState.initial)

/-- `recordRateLimitError`: increment `consecutiveErrors`, stamp `lastError`,
and set `backoffUntil = now + min(initialDelayMs * 2^consecutiveErrors,
maxDelayMs)` using the default retry constants. -/
def recordRateLimitError (now : Nat) (m : RLMap) (id : String) : RLMap :=
  let p := getAccountRateLimitState m id
  let n := p.1.consecutiveErrors + 1
  let backoffMs :=
    min (DEFAULT_RETRY_OPTIONS.initialDelayMs * 2 ^ n)
      DEFAULT_RETRY_OPTIONS.maxDelayMs
  rlUpdate p.2 id
    { lastError := some now
      consecutiveErrors := n
      backoffUntil := some (now + backoffMs) }

/-- `recordSuccessfulRequest`: reset the error counter and clear the backoff
window; touches nothing when the account has no tracked state. -/
def recordSuccessfulRequest (m : RLMap) (id : String) : RLMap :=
  match m id with
  | none => m
  | some s =>
    rlUpdate m id { s with consecutiveErrors := 0, backoffUntil := none }

/-- `isAccountInBackoff`: true iff a backoff deadline is set and lies strictly
in the future. -/
def isAccountInBackoff (now : Nat) (m : RLMap) (id : String) : Bool :=
  match m id with
  | none => false
  | some s =>
    match s.backoffUntil with
    | none => false
    | some t => now < t

/-- `getBackoffRemainingMs`: `max(0, backoffUntil - now)`, or `0` when no
backoff deadline is tracked. -/
def getBackoffRemainingMs (now : Nat) (m : RLMap) (id : String) : Int :=
  match m id with
  | none => 0
  | some s =>
    match s.backoffUntil with
    | none => 0
    | some t => max 0 ((t : Int) - (now : Int))

/-- `recordFailure(accountId)` iterated: the `k`-th failure (1-indexed) is
recorded at time `τ k`. -/
def iterFailures (τ : Nat → Nat) (m : RLMap) (id : String) : Nat → RLMap
  | 0 => m
  | k + 1 => recordRateLimitError (τ (k + 1)) (iterFailures τ m id k) id

/-! ## Token bucket rate limiter

Embedding of the `TokenBucket` class.  Token counts are JS floats, modelled
as rationals; the clock is explicit (milliseconds).  Every operation returns
the mutated bucket map, since the in-place mutation of the looked-up bucket
object persists in the JS `Map`. -/

structure ThrottleConfig where
  tokensPerSecond : ℚ
  bucketSize : ℚ
  deriving Repr, DecidableEq

def DEFAULT_THROTTLE_CONFIG : ThrottleConfig :=
  { tokensPerSecond := 250, bucketSize := 250 }

structure BucketState where
  tokens : ℚ
  lastRefill : Nat
  deriving Repr, DecidableEq

abbrev BucketMap := String → Option BucketState

def bUpdate (m : BucketMap) (id : String) (b : BucketState) : BucketMap :=
  fun k => if k = id then some b else m k

/-- `getBucket`: lazily create a full bucket on first reference. -/
def getBucket (cfg : ThrottleConfig) (now : Nat) (m : BucketMap)
    (id : String) : BucketState × BucketMap :=
  match m id with
  | some b => (b, m)
  | none =>
    let b : BucketState := { tokens := cfg.bucketSize, lastRefill := now }
    (b, bUpdate m id b)

/-- `refillTokens`: add `elapsed_seconds * tokensPerSecond` tokens, clamped to
the bucket size, and stamp the refill time. -/
def refillTokens (cfg : ThrottleConfig) (now : Nat) (b : BucketState) :
    BucketState :=
  let elapsed : ℚ := ((now : ℚ) - (b.lastRefill : ℚ)) / 1000
  let newTokens := elapsed * cfg.tokensPerSecond
  { tokens := min (b.tokens + newTokens) cfg.bucketSize, lastRefill := now }

/-- `tryConsume`: refill, then consume `cost` tokens if available. -/
def tryConsume (cfg : ThrottleConfig) (now : Nat) (m : BucketMap)
    (id : String) (cost : ℚ) : Bool × BucketMap :=
  let p := getBucket cfg now m id
  let b := refillTokens cfg now p.1
  if cost ≤ b.tokens then
    (true, bUpdate p.2 id { b with tokens := b.tokens - cost })
  else
    (false, bUpdate p.2 id b)

/-- `getWaitTime`: refill, then report `0` if `cost` tokens are available and
otherwise `ceil((cost - tokens) / tokensPerSecond * 1000)` milliseconds. -/
def getWaitTime (cfg : ThrottleConfig) (now : Nat) (m : BucketMap)
    (id : String) (cost : ℚ) : Int × BucketMap :=
  let p := getBucket cfg now m id
  let b := refillTokens cfg now p.1
  if cost ≤ b.tokens then
    (0, bUpdate p.2 id b)
  else
    let tokensNeeded := cost - b.tokens
    let waitSeconds := tokensNeeded / cfg.tokensPerSecond
    (⌈waitSeconds * 1000⌉, bUpdate p.2 id b)

/-- `waitAndConsume`: compute the wait time, sleep for it (the clock advances
by at least that much), then refill and force-subtract `cost`, clamping at
zero.  Returns the clock value after the sleep. -/
def waitAndConsume (cfg : ThrottleConfig) (now : Nat) (m : BucketMap)
    (id : String) (cost : ℚ) : Nat × BucketMap :=
  let w := getWaitTime cfg now m id cost
  let now2 := if 0 < w.1 then now + w.1.toNat else now
  let p := getBucket cfg now2 w.2 id
  let b := refillTokens cfg now2 p.1
  (now2, bUpdate p.2 id { b with tokens := max 0 (b.tokens - cost) })

/-- `getTokenCount`: refill-then-read. -/
def getTokenCount (cfg : ThrottleConfig) (now : Nat) (m : BucketMap)
    (id : String) : ℚ × BucketMap :=
  let p := getBucket cfg now m id
  let b := refillTokens cfg now p.1
  (b.tokens, bUpdate p.2 id b)

/-- `reset`: drop the stored bucket; the next reference starts full. -/
def bucketReset (m : BucketMap) (id : String) : BucketMap :=
  fun k => if k = id then none else m k

/-- One observable interaction with the throttle: an operation call on some
account key, or an advance of the ambient clock. -/
inductive ThrottleOp where
  | tryConsumeOp (id : String) (cost : ℚ)
  | getWaitTimeOp (id : String) (cost : ℚ)
  | waitAndConsumeOp (id : String) (cost : ℚ)
  | getTokenCountOp (id : String)
  | resetOp (id : String)
  | advanceOp (ms : Nat)
  deriving Repr, DecidableEq

def runOp (cfg : ThrottleConfig) : Nat × BucketMap → ThrottleOp →
    Nat × BucketMap
  | (t, m), .tryConsumeOp id c => (t, (tryConsume cfg t m id c).2)
  | (t, m), .getWaitTimeOp id c => (t, (getWaitTime cfg t m id c).2)
  | (t, m), .waitAndConsumeOp id c => waitAndConsume cfg t m id c
  | (t, m), .getTokenCountOp id => (t, (getTokenCount cfg t m id).2)
  | (t, m), .resetOp id => (t, bucketReset m id)
  | (t, m), .advanceOp ms => (t + ms, m)

/-- Run a finite interleaving of throttle calls and clock advances from the
initial state (time `0`, no buckets). -/
def runTrace (cfg : ThrottleConfig) (ops : List ThrottleOp) :
    Nat × BucketMap :=
  ops.foldl (runOp cfg) (0, fun _ => none)

/-! ## Regular expressions

The cache's pattern invalidation interpolates account ids into
`new RegExp(...)` source strings.  We embed the fragment of JS regular
expressions those patterns can produce: literal characters, `.`, the
postfix quantifiers `*`, `+`, `?`, grouping, alternation, and a leading `^`
anchor.  Compilation can fail (JS throws `SyntaxError`), e.g. on an
unterminated group.  Matching of a compiled pattern is total, via Brzozowski
derivatives. -/

inductive RE where
  | emp
  | eps
  | ch (c : Char)
  | dot
  | cat (a b : RE)
  | alt (a b : RE)
  | star (a : RE)
  deriving Repr, DecidableEq

def RE.nullable : RE → Bool
  | .emp => false
  | .eps => true
  | .ch _ => false
  | .dot => false
  | .cat a b => a.nullable && b.nullable
  | .alt a b => a.nullable || b.nullable
  | .star _ => true

/-- JS line terminators, which `.` does not match. -/
def isLineTerminator (c : Char) : Bool :=
  c = '\n' || c = '\r' || c = '\u2028' || c = '\u2029'

def RE.deriv : RE → Char → RE
  | .emp, _ => .emp
  | .eps, _ => .emp
  | .ch c, d => if c = d then .eps else .emp
  | .dot, d => if isLineTerminator d then .emp else .eps
  | .cat a b, d =>
    if a.nullable then .alt (.cat (a.deriv d) b) (b.deriv d)
    else .cat (a.deriv d) b
  | .alt a b, d => .alt (a.deriv d) (b.deriv d)
  | .star a, d => .cat (a.deriv d) (.star a)

/-- Does `r` match some (possibly empty) leading segment of `s`? -/
def reMatchesPref : RE → List Char → Bool
  | r, [] => r.nullable
  | r, c :: cs => r.nullable || reMatchesPref (r.deriv c) cs

/-- Does `r` match a segment starting anywhere in `s`? -/
def reSearch : RE → List Char → Bool
  | r, [] => r.nullable
  | r, c :: cs => reMatchesPref r (c :: cs) || reSearch r cs

/-- Apply an optional postfix quantifier to a parsed atom. -/
def applyQuant (a : RE) : List Char → RE × List Char
  | '*' :: rest => (.star a, rest)
  | '+' :: rest => (.cat a (.star a), rest)
  | '?' :: rest => (.alt a .eps, rest)
  | rest => (a, rest)

/-- Recursive-descent parser for the supported pattern fragment.  `acc` is
the sequence parsed so far; parsing stops at `)` (left for the caller that
opened the group) or at the end of the pattern.  The fuel argument is purely
structural; each recursive step consumes at least one input character, so
`length + 1` fuel never runs out. -/
def parseRe : Nat → List Char → RE → Except String (RE × List Char)
  | 0, _, _ => .error "internal: out of fuel"
  | _ + 1, [], acc => .ok (acc, [])
  | _ + 1, ')' :: rest, acc => .ok (acc, ')' :: rest)
  | f + 1, '|' :: rest, acc =>
    match parseRe f rest .eps with
    | .error e => .error e
    | .ok (b, rest2) => .ok (.alt acc b, rest2)
  | f + 1, '(' :: rest, acc =>
    (match parseRe f rest .eps with
     | .error e => .error e
     | .ok (g, rest2) =>
       match rest2 with
       | ')' :: rest3 =>
         let q := applyQuant g rest3
         parseRe f q.2 (.cat acc q.1)
       | _ => .error "Unterminated group")
  | _ + 1, '*' :: _, _ => .error "Nothing to repeat"
  | _ + 1, '+' :: _, _ => .error "Nothing to repeat"
  | _ + 1, '?' :: _, _ => .error "Nothing to repeat"
  | _ + 1, '[' :: _, _ => .error "Unterminated character class"
  | _ + 1, '\\' :: _, _ => .error "unsupported: escape"
  | _ + 1, '$' :: _, _ => .error "unsupported: anchor"
  | _ + 1, '^' :: _, _ => .error "unsupported: mid-pattern anchor"
  | _ + 1, '\x7b' :: _, _ => .error "unsupported: brace quantifier"
  | f + 1, c :: rest, acc =>
    let atom := if c = '.' then RE.dot else RE.ch c
    let q := applyQuant atom rest
    parseRe f q.2 (.cat acc q.1)

structure CompiledRegex where
  anchored : Bool
  re : RE
  deriving Repr, DecidableEq

/-- `new RegExp(pattern)`: strip a leading `^` anchor, then parse; `.error`
models a thrown `SyntaxError`. -/
def compileRegex (pattern : String) : Except String CompiledRegex :=
  let cs := pattern.toList
  let p : Bool × List Char :=
    match cs with
    | '^' :: rest => (true, rest)
    | _ => (false, cs)
  match parseRe (p.2.length + 1) p.2 .eps with
  | .error e => .error e
  | .ok (r, []) => .ok { anchored := p.1, re := r }
  | .ok (_, _ :: _) => .error "Unmatched parenthesis"

/-- `regexp.test(key)`. -/
def regexTest (r : CompiledRegex) (s : String) : Bool :=
  if r.anchored then reMatchesPref r.re s.toList else reSearch r.re s.toList

/-! ## TTL LRU response cache

Embedding of the `LRUCache` class.  The JS `Map` (which iterates in
insertion order, with delete-then-set moving a key to the end) is modelled
as an association list whose head is the oldest entry; the clock is
explicit.  `set` returns an `Option` because its eviction `while` loop never
terminates when the map's first key is the empty string (falsy in JS) or the
map is empty while still at capacity (`maxSize = 0`). -/

structure CacheEntry (T : Type) where
  value : T
  expiresAt : Nat
  createdAt : Nat
  deriving Repr, DecidableEq

structure CacheConfig where
  maxSize : Nat
  defaultTtlMs : Nat
  deriving Repr, DecidableEq

def DEFAULT_CACHE_CONFIG : CacheConfig :=
  { maxSize := 1000, defaultTtlMs := 60000 }

structure CacheStats where
  hits : Nat
  misses : Nat
  evictions : Nat
  deriving Repr, DecidableEq

structure CacheState (T : Type) where
  entries : List (String × CacheEntry T)
  config : CacheConfig
  stats : CacheStats
  deriving Repr, DecidableEq

def emptyCache (T : Type) (config : CacheConfig) : CacheState T :=
  { entries := [], config := config, stats := ⟨0, 0, 0⟩ }

/-- Association-list lookup (first binding wins, as in a JS `Map`, whose
keys are unique). -/
def alookup {β : Type} : List (String × β) → String → Option β
  | [], _ => none
  | (k', v) :: t, k => if k' = k then some v else alookup t k

/-- Remove the (first) binding of a key, as `Map.delete`. -/
def aerase {β : Type} : List (String × β) → String → List (String × β)
  | [], _ => []
  | (k', v) :: t, k => if k' = k then t else (k', v) :: aerase t k

/-- `get`: miss on absence; lazily expire when `now > expiresAt`; on a hit
move the entry to the most-recently-used (last) position. -/
def cacheGet {T : Type} (now : Nat) (st : CacheState T) (key : String) :
    Option (CacheEntry T) × CacheState T :=
  match alookup st.entries key with
  | none =>
    (none,
      { entries := st.entries
        config := st.config
        stats :=
          { hits := st.stats.hits, misses := st.stats.misses + 1,
            evictions := st.stats.evictions } })
  | some e =>
    if e.expiresAt < now then
      (none,
        { entries := aerase st.entries key
          config := st.config
          stats :=
            { hits := st.stats.hits, misses := st.stats.misses + 1,
              evictions := st.stats.evictions } })
    else
      (some e,
        { entries := aerase st.entries key ++ [(key, e)]
          config := st.config
          stats :=
            { hits := st.stats.hits + 1, misses := st.stats.misses,
              evictions := st.stats.evictions } })

/-- The eviction `while` loop of `set`: while at or above capacity, delete
the structurally-first key, counting evictions.  `none` models
non-termination: the loop spins forever when the first key is falsy (the
empty string) or the map is exhausted while still at capacity. -/
def evictWhile {T : Type} (maxSize : Nat) :
    List (String × CacheEntry T) → Nat →
    Option (List (String × CacheEntry T) × Nat)
  | [], evs => if maxSize = 0 then none else some ([], evs)
  | (k, e) :: t, evs =>
    if ((k, e) :: t).length < maxSize then some ((k, e) :: t, evs)
    else if k = "" then none
    else evictWhile maxSize t (evs + 1)

/-- `set`: delete an existing binding first (so re-insertion lands at the
MRU position), evict from the LRU end while at capacity, then insert with
`expiresAt = now + ttl`. -/
def cacheSet {T : Type} (now : Nat) (st : CacheState T) (key : String)
    (value : T) (ttlMs : Option Nat) : Option (CacheState T) :=
  let ttl := ttlMs.getD st.config.defaultTtlMs
  let entries :=
    if (alookup st.entries key).isSome then aerase st.entries key
    else st.entries
  match evictWhile st.config.maxSize entries st.stats.evictions with
  | none => none
  | some (entries2, evs) =>
    some
      { entries :=
          entries2 ++
            [(key, { value := value, expiresAt := now + ttl, createdAt := now })]
        config := st.config
        stats :=
          { hits := st.stats.hits, misses := st.stats.misses,
            evictions := evs } }

/-- `getWithMeta`: the same lookup as `get`, additionally reporting the
remaining time-to-live on a hit. -/
def getWithMeta {T : Type} (now : Nat) (st : CacheState T) (key : String) :
    Option (T × Nat) × CacheState T :=
  match cacheGet now st key with
  | (none, st2) => (none, st2)
  | (some e, st2) => (some (e.value, e.expiresAt - now), st2)

def cacheDelete {T : Type} (st : CacheState T) (key : String) :
    Bool × CacheState T :=
  ((alookup st.entries key).isSome,
    { st with entries := aerase st.entries key })

/-- `invalidatePattern`: delete every key matching the compiled pattern,
returning the number removed. -/
def invalidatePattern {T : Type} (r : CompiledRegex) (st : CacheState T) :
    Nat × CacheState T :=
  ((st.entries.filter (fun p => regexTest r p.1)).length,
    { st with entries := st.entries.filter (fun p => !regexTest r p.1) })

/-- `invalidateAccount`: `invalidatePattern(new RegExp('^' + accountId + ':'))`;
the interpolation is unescaped, so compilation can throw. -/
def invalidateAccount {T : Type} (accountId : String) (st : CacheState T) :
    Except String (Nat × CacheState T) :=
  match compileRegex ("^" ++ accountId ++ ":") with
  | .error e => .error e
  | .ok r => .ok (invalidatePattern r st)

/-- `invalidateDrafts`. -/
def invalidateDrafts {T : Type} (accountId : String) (st : CacheState T) :
    Except String (CacheState T) :=
  match compileRegex ("^" ++ accountId ++ ":draft") with
  | .error e => .error e
  | .ok r => .ok (invalidatePattern r st).2

/-- `invalidateForMessageModification`. -/
def invalidateForMessageModification {T : Type} (accountId : String)
    (messageId : Option String) (st : CacheState T) :
    Except String (CacheState T) :=
  match compileRegex ("^" ++ accountId ++ ":search:") with
  | .error e => .error e
  | .ok r1 =>
    let st1 := (invalidatePattern r1 st).2
    match compileRegex ("^" ++ accountId ++ ":labels:") with
    | .error e => .error e
    | .ok r2 =>
      let st2 := (invalidatePattern r2 st1).2
      match messageId with
      | none => .ok st2
      | some mid =>
        match compileRegex ("^" ++ accountId ++ ":message:.*" ++ mid) with
        | .error e => .error e
        | .ok r3 =>
          let st3 := (invalidatePattern r3 st2).2
          match compileRegex ("^" ++ accountId ++ ":thread:") with
          | .error e => .error e
          | .ok r4 => .ok (invalidatePattern r4 st3).2

def cacheClear {T : Type} (st : CacheState T) : CacheState T :=
  { st with entries := [] }

def cacheSize {T : Type} (st : CacheState T) : Nat :=
  st.entries.length

def getStats {T : Type} (st : CacheState T) : Nat × Nat × Nat × Nat × ℚ :=
  let total := st.stats.hits + st.stats.misses
  (st.stats.hits, st.stats.misses, st.stats.evictions, st.entries.length,
    if 0 < total then (st.stats.hits : ℚ) / (total : ℚ) else 0)

/-- `withCache`: look the key up; on a hit return immediately with metadata;
on a miss run the operation (modelled by its result `v`), store it, and
report `cacheHit := false` with the effective TTL.  The final component
counts invocations of the operation; `none` models a non-terminating
eviction loop inside `set`. -/
def withCache {T : Type} (now : Nat) (st : CacheState T) (key : String)
    (v : T) (ttlMs : Option Nat) :
    Option ((T × Bool × Nat) × CacheState T × Nat) :=
  match getWithMeta now st key with
  | (some (val, rem), st2) => some ((val, true, rem), st2, 0)
  | (none, st2) =>
    match cacheSet now st2 key v ttlMs with
    | none => none
    | some st3 =>
      some ((v, false, ttlMs.getD DEFAULT_CACHE_CONFIG.defaultTtlMs), st3, 1)

/-! ## Cache key construction

`LRUCache.makeKey` serializes the parameter object with
`JSON.stringify(params, Object.keys(params).sort())`.  We embed JSON values
and `JSON.stringify` with an array replacer: the replacer is an allowlist of
property names applied to *every* object encountered, at any depth, with
properties emitted in replacer order; array elements are always kept. -/

mutual
inductive Json where
  | str (s : String)
  | num (n : Int)
  | jbool (b : Bool)
  | null
  | obj (fields : JsonFields)
  | arr (elems : JsonElems)
  deriving Repr
inductive JsonFields where
  | nil
  | cons (k : String) (v : Json) (rest : JsonFields)
  deriving Repr
inductive JsonElems where
  | nil
  | cons (v : Json) (rest : JsonElems)
  deriving Repr
end

mutual
def jsize : Json → Nat
  | .str _ => 1
  | .num _ => 1
  | .jbool _ => 1
  | .null => 1
  | .obj fs => 1 + jsizeFields fs
  | .arr xs => 1 + jsizeElems xs
def jsizeFields : JsonFields → Nat
  | .nil => 0
  | .cons _ v rest => 1 + jsize v + jsizeFields rest
def jsizeElems : JsonElems → Nat
  | .nil => 0
  | .cons v rest => 1 + jsize v + jsizeElems rest
end

def fieldKeys : JsonFields → List String
  | .nil => []
  | .cons k _ rest => k :: fieldKeys rest

def elemsToList : JsonElems → List Json
  | .nil => []
  | .cons v rest => v :: elemsToList rest

def escapeJsonChar (c : Char) : String :=
  if c = '"' then "\\\""
  else if c = '\\' then "\\\\"
  else if c = '\n' then "\\n"
  else if c = '\r' then "\\r"
  else if c = '\t' then "\\t"
  else String.singleton c

def jstr (s : String) : String :=
  "\"" ++ String.join (s.toList.map escapeJsonChar) ++ "\""

def joinComma : List String → String
  | [] => ""
  | [x] => x
  | x :: y :: t => x ++ "," ++ joinComma (y :: t)

def jsonLookup : JsonFields → String → Option Json
  | .nil, _ => none
  | .cons k' v t, k => if k' = k then some v else jsonLookup t k

/-- `JSON.stringify(j, replacer)` with an array replacer, fuelled (the fuel
only needs to exceed the nesting depth; `makeKey` passes `jsize`). -/
def serializeJsonF (replacer : List String) : Nat → Json → String
  | 0, _ => ""
  | _ + 1, .str s => jstr s
  | _ + 1, .num n => toString n
  | _ + 1, .jbool b => if b then "true" else "false"
  | _ + 1, .null => "null"
  | f + 1, .arr xs =>
    "[" ++ joinComma ((elemsToList xs).map (serializeJsonF replacer f)) ++ "]"
  | f + 1, .obj fs =>
    let parts := replacer.filterMap fun k =>
      (jsonLookup fs k).map fun v =>
        jstr k ++ ":" ++ serializeJsonF replacer f v
    "\x7b" ++ joinComma parts ++ "\x7d"

def insortString (k : String) : List String → List String
  | [] => [k]
  | x :: xs => if k ≤ x then k :: x :: xs else x :: insortString k xs

/-- `Object.keys(params).sort()`: the top-level key names, sorted. -/
def sortStrings : List String → List String
  | [] => []
  | x :: xs => insortString x (sortStrings xs)

/-- `makeKey(accountId, method, params)`: join with `:`, serializing the
parameters with the sorted top-level key names as the replacer. -/
def makeKey (accountId method : String) (params : Option JsonFields) :
    String :=
  let paramStr :=
    match params with
    | none => ""
    | some fs =>
      serializeJsonF (sortStrings (fieldKeys fs))
        (jsize (Json.obj fs) + 1) (Json.obj fs)
  accountId ++ ":" ++ method ++ ":" ++ paramStr

/-! ## Theorems -/

/-- When every attempt fails retryably, the loop runs all `remaining + 1`
attempts, sleeps `remaining` times, and ends with the last attempt's error. -/
lemma retryLoop_allFail {T : Type} (op : Nat → Except ErrVal T)
    (codes : List Int) (err : Nat → ErrVal)
    (h : ∀ i, op i = Except.error (err i))
    (hr : ∀ i, isRetryable (err i) codes = true) :
    ∀ remaining attempt,
      retryLoop op codes attempt remaining =
        (Except.error (err (attempt + remaining)), remaining + 1, remaining) := by
  intro remaining
  induction remaining with
  | zero =>
    intro attempt
    simp [retryLoop, h attempt]
  | succ r ih =>
    intro attempt
    have harith : attempt + 1 + r = attempt + (r + 1) := by omega
    rw [retryLoop, h attempt]
    simp only [hr attempt, if_true]
    rw [ih (attempt + 1), harith]

/-- C1: for every asynchronous operation failing on every attempt with a
retryable status code and every configured `maxRetries = n`, `withRetry`
invokes the operation exactly `n + 1` times (sleeping `n` times in between)
and rethrows the error value of the last attempt unchanged. -/
theorem withRetry_exhaustion_count {T : Type} (op : Nat → Except ErrVal T)
    (opts : RetryOptions) (err : Nat → ErrVal)
    (h : ∀ i, op i = Except.error (err i))
    (hr : ∀ i, isRetryable (err i) opts.retryableStatusCodes = true) :
    withRetry op opts =
      (Except.error (err opts.maxRetries), opts.maxRetries + 1,
        opts.maxRetries) := by
  have := retryLoop_allFail op opts.retryableStatusCodes err h hr
    opts.maxRetries 0
  simpa [withRetry] using this

def err503 : ErrVal :=
  { isObject := true, status := some 503, responseStatus := none,
    codeNum := none }

def opAlways503 : Nat → Except ErrVal Nat := fun _ => Except.error err503

/-- Witness for C1: with `maxRetries := 3` an operation that always fails
with status 503 runs exactly 4 times and the original 503 error is
rethrown. -/
theorem withRetry_exhaustion_count_witness :
    (∀ i : Nat, opAlways503 i = Except.error err503) ∧
    (∀ _ : Nat,
      isRetryable err503
        ({ DEFAULT_RETRY_OPTIONS with maxRetries := 3 }).retryableStatusCodes
        = true) ∧
    withRetry opAlways503 { DEFAULT_RETRY_OPTIONS with maxRetries := 3 } =
      (Except.error err503, 4, 3) :=
  ⟨fun _ => rfl, fun _ => rfl,
    withRetry_exhaustion_count opAlways503
      { DEFAULT_RETRY_OPTIONS with maxRetries := 3 } (fun _ => err503)
      (fun _ => rfl) (fun _ => rfl)⟩

/-- C3: when the first attempt fails with a non-retryable error (no
extractable status code, or a code outside the retryable set), `withRetry`
invokes the operation exactly once, sleeps zero times, and propagates that
error unchanged. -/
theorem withRetry_nonretryable_once {T : Type} (op : Nat → Except ErrVal T)
    (opts : RetryOptions) (e : ErrVal) (h : op 0 = Except.error e)
    (hnr : isRetryable e opts.retryableStatusCodes = false) :
    withRetry op opts = (Except.error e, 1, 0) := by
  unfold withRetry
  cases hm : opts.maxRetries with
  | zero => simp [retryLoop, h]
  | succ r => simp [retryLoop, h, hnr]

def err400 : ErrVal :=
  { isObject := true, status := some 400, responseStatus := none,
    codeNum := none }

def opFails400 : Nat → Except ErrVal Nat := fun _ => Except.error err400

/-- Witness for C3: an operation failing with status 400 runs exactly once
even with `maxRetries := 5`. -/
theorem withRetry_nonretryable_once_witness :
    opFails400 0 = Except.error err400 ∧
    isRetryable err400
      ({ DEFAULT_RETRY_OPTIONS with maxRetries := 5 }).retryableStatusCodes
      = false ∧
    withRetry opFails400 { DEFAULT_RETRY_OPTIONS with maxRetries := 5 } =
      (Except.error err400, 1, 0) :=
  ⟨rfl, rfl,
    withRetry_nonretryable_once opFails400
      { DEFAULT_RETRY_OPTIONS with maxRetries := 5 } err400 rfl rfl⟩

/-- State after `N ≥ 1` consecutive failures of a previously untracked
account: `consecutiveErrors = N` and
`backoffUntil = (time of the N-th failure) + min(1000 * 2^N, 32000)`. -/
lemma iterFailures_state (τ : Nat → Nat) (m : RLMap) (id : String)
    (h : m id = none) :
    ∀ N, 1 ≤ N →
      iterFailures τ m id N id =
        some
          { lastError := some (τ N)
            consecutiveErrors := N
            backoffUntil := some (τ N + min (1000 * 2 ^ N) 32000) } := by
  intro N
  induction N with
  | zero => omega
  | succ k ih =>
    intro _
    by_cases hk : 1 ≤ k
    · show recordRateLimitError (τ (k + 1)) (iterFailures τ m id k) id id = _
      rw [recordRateLimitError, getAccountRateLimitState]
      simp [ih hk, rlUpdate, DEFAULT_RETRY_OPTIONS]
    · have hk0 : k = 0 := by omega
      subst hk0
      show recordRateLimitError (τ 1) (iterFailures τ m id 0) id id = _
      rw [iterFailures, recordRateLimitError, getAccountRateLimitState]
      simp [h, rlUpdate, RateLimitState.initial, DEFAULT_RETRY_OPTIONS]

/-- C5: after the `N`-th consecutive `recordFailure` of a fresh account,
`backoffUntil = now + min(1000 * 2^N, 32000)`; the `remainingBackoff`
observed immediately after the `N`-th failure equals that delay, the delays
are strictly increasing while `N < 5`, and they plateau at `32000` for
`N ≥ 5`. -/
theorem backoff_monotonic_growth (τ : Nat → Nat) (m : RLMap) (id : String)
    (h : m id = none) (N : Nat) (hN : 1 ≤ N) :
    iterFailures τ m id N id =
      some
        { lastError := some (τ N)
          consecutiveErrors := N
          backoffUntil := some (τ N + min (1000 * 2 ^ N) 32000) } ∧
    getBackoffRemainingMs (τ N) (iterFailures τ m id N) id =
      ((min (1000 * 2 ^ N) 32000 : Nat) : Int) ∧
    (N < 5 → min (1000 * 2 ^ N) 32000 < min (1000 * 2 ^ (N + 1)) 32000) ∧
    (5 ≤ N → min (1000 * 2 ^ N) 32000 = 32000) := by
  have hstate := iterFailures_state τ m id h N hN
  refine ⟨hstate, ?_, ?_, ?_⟩
  · simp only [getBackoffRemainingMs, hstate]
    have hmax : ∀ t g : Nat, max 0 (((t + g : Nat) : Int) - (t : Int)) = (g : Int) := by
      intro t g
      push_cast
      omega
    exact hmax _ _
  · intro h5
    interval_cases N <;> decide
  · intro h5
    have h32 : 32000 ≤ 1000 * 2 ^ N := by
      have : (2 : Nat) ^ 5 ≤ 2 ^ N := Nat.pow_le_pow_right (by norm_num) h5
      calc (32000 : Nat) = 1000 * 2 ^ 5 := by norm_num
        _ ≤ 1000 * 2 ^ N := by exact Nat.mul_le_mul_left _ this
    omega

/-- Witness for C5: five consecutive failures of account `"A"` recorded at
time 0 yield `consecutiveErrors = 5` and a remaining backoff of 32000 ms,
the cap. -/
theorem backoff_monotonic_growth_witness :
    rlEmpty "A" = none ∧ 1 ≤ 5 ∧
    (iterFailures (fun _ => 0) rlEmpty "A" 5 "A" =
      some
        { lastError := some 0
          consecutiveErrors := 5
          backoffUntil := some (0 + min (1000 * 2 ^ 5) 32000) } ∧
    getBackoffRemainingMs 0 (iterFailures (fun _ => 0) rlEmpty "A" 5) "A" =
      ((min (1000 * 2 ^ 5) 32000 : Nat) : Int) ∧
    (5 < 5 → min (1000 * 2 ^ 5) 32000 < min (1000 * 2 ^ (5 + 1)) 32000) ∧
    (5 ≤ 5 → min (1000 * 2 ^ 5) 32000 = 32000)) :=
  ⟨rfl, by omega,
    backoff_monotonic_growth (fun _ => 0) rlEmpty "A" rfl 5 (by omega)⟩

def c6Example : RLMap :=
  recordRateLimitError 0
    (recordRateLimitError 0 (recordRateLimitError 0 rlEmpty "A") "A") "B"

/-- C6: backoff state is fully isolated per account: recording a failure or
a success for account `a` leaves the tracked state of any other account `b`
unchanged; in particular two failures of `"A"` and one of `"B"` leave
`consecutiveErrors` at 2 and 1 respectively. -/
theorem backoff_account_isolation (a b : String) (hab : a ≠ b) (now : Nat)
    (m : RLMap) :
    recordRateLimitError now m a b = m b ∧
    recordSuccessfulRequest m a b = m b ∧
    (c6Example "A").map RateLimitState.consecutiveErrors = some 2 ∧
    (c6Example "B").map RateLimitState.consecutiveErrors = some 1 := by
  have hba : (b = a) = False := eq_false (Ne.symm hab)
  refine ⟨?_, ?_, by decide, by decide⟩
  · cases hma : m a with
    | none =>
      simp [recordRateLimitError, getAccountRateLimitState, hma, rlUpdate,
        hba]
    | some s =>
      simp [recordRateLimitError, getAccountRateLimitState, hma, rlUpdate,
        hba]
  · cases hma : m a with
    | none => simp [recordSuccessfulRequest, hma]
    | some s => simp [recordSuccessfulRequest, hma, rlUpdate, hba]

/-- Witness for C6: applied at the distinct accounts `"A"` and `"B"`. -/
theorem backoff_account_isolation_witness :
    ("A" : String) ≠ "B" ∧
    recordRateLimitError 7 rlEmpty "A" "B" = rlEmpty "B" :=
  ⟨by decide, (backoff_account_isolation "A" "B" (by decide) 7 rlEmpty).1⟩

def c4Cfg : CacheConfig := { maxSize := 5, defaultTtlMs := 60000 }

/-- The C4 scenario: fill a cache of capacity 5 with `k0..k4`, `get(k0)`,
then insert `k5`. -/
def c4Final : Option (CacheState Nat) :=
  (cacheSet 0 (emptyCache Nat c4Cfg) "k0" 0 none).bind fun st1 =>
    (cacheSet 0 st1 "k1" 1 none).bind fun st2 =>
      (cacheSet 0 st2 "k2" 2 none).bind fun st3 =>
        (cacheSet 0 st3 "k3" 3 none).bind fun st4 =>
          (cacheSet 0 st4 "k4" 4 none).bind fun st5 =>
            cacheSet 0 (cacheGet 0 st5 "k0").2 "k5" 5 none

/-- A two-entry cache for the set-of-existing-key part of C4. -/
def c4Two : CacheState Nat :=
  { entries :=
      [("k0", { value := 0, expiresAt := 60000, createdAt := 0 }),
        ("k1", { value := 1, expiresAt := 60000, createdAt := 0 })]
    config := c4Cfg
    stats := ⟨0, 0, 0⟩ }

/-- C4: eviction is strict LRU by access recency: after filling `k0..k4`
(capacity 5), reading `k0` and inserting `k5`, exactly `k1` — the
least-recently-used key — is gone, while `k0` and all other keys remain, in
recency order; and `set` of an existing key also counts as an access, moving
that entry to the most-recently-used position. -/
theorem lru_eviction_order :
    c4Final.map (fun st => st.entries.map Prod.fst) =
      some ["k2", "k3", "k4", "k0", "k5"] ∧
    (cacheSet 0 c4Two "k0" 9 none).map (fun st => st.entries.map Prod.fst) =
      some ["k1", "k0"] := by decide

/-- Appending a fresh binding at the MRU end makes it the lookup result. -/
lemma alookup_append_self {β : Type} (l : List (String × β)) (k : String)
    (e : β) (h : alookup l k = none) :
    alookup (l ++ [(k, e)]) k = some e := by
  induction l with
  | nil => simp [alookup]
  | cons p t ih =>
    obtain ⟨k', v⟩ := p
    by_cases hk : k' = k
    · rw [alookup, if_pos hk] at h
      exact absurd h (by simp)
    · rw [List.cons_append, alookup, if_neg hk]
      rw [alookup, if_neg hk] at h
      exact ih h

/-- `get` on an absent key is a miss that only bumps the miss counter. -/
lemma cacheGet_miss {T : Type} (now : Nat) (st : CacheState T) (key : String)
    (h : alookup st.entries key = none) :
    cacheGet now st key =
      (none,
        { entries := st.entries
          config := st.config
          stats :=
            { hits := st.stats.hits, misses := st.stats.misses + 1,
              evictions := st.stats.evictions } }) := by
  simp [cacheGet, h]

/-- `get` on a present, unexpired key is a hit that moves the entry to the
MRU end. -/
lemma cacheGet_hit {T : Type} (now : Nat) (st : CacheState T) (key : String)
    (e : CacheEntry T) (h : alookup st.entries key = some e)
    (hexp : ¬ e.expiresAt < now) :
    cacheGet now st key =
      (some e,
        { entries := aerase st.entries key ++ [(key, e)]
          config := st.config
          stats :=
            { hits := st.stats.hits + 1, misses := st.stats.misses,
              evictions := st.stats.evictions } }) := by
  simp [cacheGet, h, hexp]

/-- The eviction loop does nothing when strictly under capacity. -/
lemma evictWhile_under {T : Type} (maxSize : Nat)
    (l : List (String × CacheEntry T)) (evs : Nat)
    (h : l.length < maxSize) :
    evictWhile maxSize l evs = some (l, evs) := by
  cases l with
  | nil =>
    have hne : maxSize ≠ 0 := by
      intro h0
      rw [h0] at h
      exact absurd h (by simp)
    simp [evictWhile, hne]
  | cons p t =>
    obtain ⟨k, e⟩ := p
    rw [evictWhile, if_pos h]

/-- `set` of an absent key on a cache strictly under capacity appends the
entry at the MRU end, evicting nothing. -/
lemma cacheSet_fresh {T : Type} (now : Nat) (st : CacheState T) (key : String)
    (v : T) (ttlMs : Option Nat) (h : alookup st.entries key = none)
    (hcap : st.entries.length < st.config.maxSize) :
    cacheSet now st key v ttlMs =
      some
        { entries :=
            st.entries ++
              [(key,
                { value := v
                  expiresAt := now + ttlMs.getD st.config.defaultTtlMs
                  createdAt := now })]
          config := st.config
          stats :=
            { hits := st.stats.hits, misses := st.stats.misses,
              evictions := st.stats.evictions } } := by
  rw [cacheSet]
  simp only [h, Option.isSome_none, Bool.false_eq_true, if_neg, ite_false]
  rw [evictWhile_under st.config.maxSize st.entries st.stats.evictions hcap]

/-- C7: `withCache` is idempotent over a stable cache: starting from a state
where the key is absent and the cache is under capacity, two successive
calls run the operation exactly once (`1` then `0` invocations), both calls
return the operation's value, the first reports a miss and the second a
hit. -/
theorem withCache_idempotent {T : Type} (now : Nat) (st : CacheState T)
    (key : String) (v : T) (ttlMs : Option Nat)
    (hmiss : alookup st.entries key = none)
    (hcap : st.entries.length < st.config.maxSize) :
    ∃ st1 st2 rem,
      withCache now st key v ttlMs =
        some ((v, false, ttlMs.getD DEFAULT_CACHE_CONFIG.defaultTtlMs), st1, 1) ∧
      withCache now st1 key v ttlMs = some ((v, true, rem), st2, 0) := by
  have hfirst :
      withCache now st key v ttlMs =
        some ((v, false, ttlMs.getD DEFAULT_CACHE_CONFIG.defaultTtlMs),
          ({ entries :=
              st.entries ++
                [(key,
                  { value := v
                    expiresAt := now + ttlMs.getD st.config.defaultTtlMs
                    createdAt := now })]
             config := st.config
             stats :=
              { hits := st.stats.hits, misses := st.stats.misses + 1,
                evictions := st.stats.evictions } } : CacheState T), 1) := by
    simp only [withCache, getWithMeta, cacheGet_miss now st key hmiss]
    rw [cacheSet_fresh now
      { entries := st.entries
        config := st.config
        stats :=
          { hits := st.stats.hits, misses := st.stats.misses + 1,
            evictions := st.stats.evictions } } key v ttlMs hmiss hcap]
  have hlook :
      alookup
        (st.entries ++
          [(key,
            ({ value := v
               expiresAt := now + ttlMs.getD st.config.defaultTtlMs
               createdAt := now } : CacheEntry T))]) key =
        some
          { value := v
            expiresAt := now + ttlMs.getD st.config.defaultTtlMs
            createdAt := now } :=
    alookup_append_self st.entries key _ hmiss
  have hexp : ¬ now + ttlMs.getD st.config.defaultTtlMs < now := by omega
  have hsecond :
      withCache now
        ({ entries :=
            st.entries ++
              [(key,
                { value := v
                  expiresAt := now + ttlMs.getD st.config.defaultTtlMs
                  createdAt := now })]
           config := st.config
           stats :=
            { hits := st.stats.hits, misses := st.stats.misses + 1,
              evictions := st.stats.evictions } } : CacheState T) key v ttlMs =
        some ((v, true, now + ttlMs.getD st.config.defaultTtlMs - now),
          ({ entries :=
              aerase
                (st.entries ++
                  [(key,
                    { value := v
                      expiresAt := now + ttlMs.getD st.config.defaultTtlMs
                      createdAt := now })]) key ++
                [(key,
                  { value := v
                    expiresAt := now + ttlMs.getD st.config.defaultTtlMs
                    createdAt := now })]
             config := st.config
             stats :=
              { hits := st.stats.hits + 1, misses := st.stats.misses + 1,
                evictions := st.stats.evictions } } : CacheState T), 0) := by
    simp only [withCache, getWithMeta,
      cacheGet_hit now
        { entries :=
            st.entries ++
              [(key,
                { value := v
                  expiresAt := now + ttlMs.getD st.config.defaultTtlMs
                  createdAt := now })]
          config := st.config
          stats :=
            { hits := st.stats.hits, misses := st.stats.misses + 1,
              evictions := st.stats.evictions } } key
        { value := v
          expiresAt := now + ttlMs.getD st.config.defaultTtlMs
          createdAt := now } hlook hexp]
  exact ⟨_, _, _, hfirst, hsecond⟩

/-- Witness for C7: two successive `withCache` calls for key `"k"` on the
empty default cache. -/
theorem withCache_idempotent_witness :
    alookup (emptyCache Nat DEFAULT_CACHE_CONFIG).entries "k" = none ∧
    (emptyCache Nat DEFAULT_CACHE_CONFIG).entries.length <
      (emptyCache Nat DEFAULT_CACHE_CONFIG).config.maxSize ∧
    ∃ st1 st2 rem,
      withCache 0 (emptyCache Nat DEFAULT_CACHE_CONFIG) "k" 7 none =
        some ((7, false, (none : Option Nat).getD DEFAULT_CACHE_CONFIG.defaultTtlMs), st1, 1) ∧
      withCache 0 st1 "k" 7 none = some ((7, true, rem), st2, 0) :=
  ⟨rfl, by decide,
    withCache_idempotent 0 (emptyCache Nat DEFAULT_CACHE_CONFIG) "k" 7 none
      rfl (by decide)⟩

/-- Observable: did the call return normally (`.ok`) rather than throw? -/
def exceptOk {ε α : Type} : Except ε α → Bool
  | .ok _ => true
  | .error _ => false

def emptyNatCache : CacheState Nat := emptyCache Nat DEFAULT_CACHE_CONFIG

/-- C8 counterexample: `invalidateAccount("(")` interpolates the account id
into the pattern `^(:`, whose compilation throws a `SyntaxError`
(unterminated group), so the call does not return normally. -/
theorem invalidateAccount_throws_on_paren :
    invalidateAccount "(" emptyNatCache = Except.error "Unterminated group" :=
  rfl

/-- C8 (amended): the regex-interpolating invalidation helpers return
normally whenever the interpolated pattern compiles; the remaining tracker
and cache operations are total functions of the embedding. -/
theorem invalidation_ok_when_pattern_compiles {T : Type} (st : CacheState T)
    (id mid : String) :
    ((∃ r, compileRegex ("^" ++ id ++ ":") = Except.ok r) →
      exceptOk (invalidateAccount id st) = true) ∧
    ((∃ r, compileRegex ("^" ++ id ++ ":draft") = Except.ok r) →
      exceptOk (invalidateDrafts id st) = true) ∧
    ((∃ r, compileRegex ("^" ++ id ++ ":search:") = Except.ok r) →
      (∃ r, compileRegex ("^" ++ id ++ ":labels:") = Except.ok r) →
      (∃ r, compileRegex ("^" ++ id ++ ":message:.*" ++ mid) = Except.ok r) →
      (∃ r, compileRegex ("^" ++ id ++ ":thread:") = Except.ok r) →
      exceptOk (invalidateForMessageModification id (some mid) st) = true) := by
  refine ⟨?_, ?_, ?_⟩
  · rintro ⟨r, hr⟩
    simp only [invalidateAccount, hr, exceptOk]
  · rintro ⟨r, hr⟩
    simp only [invalidateDrafts, hr, exceptOk]
  · rintro ⟨r1, h1⟩ ⟨r2, h2⟩ ⟨r3, h3⟩ ⟨r4, h4⟩
    simp only [invalidateForMessageModification, h1, h2, h3, h4, exceptOk]

/-- Witness for the amended C8: for the plain account id `"acct1"` every
pattern compiles and `invalidateAccount` returns normally. -/
theorem invalidation_ok_when_pattern_compiles_witness :
    (∃ r, compileRegex ("^" ++ "acct1" ++ ":") = Except.ok r) ∧
    exceptOk (invalidateAccount "acct1" emptyNatCache) = true :=
  ⟨⟨_, rfl⟩,
    (invalidation_ok_when_pattern_compiles emptyNatCache "acct1" "m1").1
      ⟨_, rfl⟩⟩

def c9p1 : JsonFields := .cons "q" (.obj (.cons "x" (.num 1) .nil)) .nil

def c9p2 : JsonFields := .cons "q" (.obj (.cons "y" (.num 2) .nil)) .nil

/-- C9: `makeKey` uses the sorted top-level key names as the `JSON.stringify`
replacer, which filters object properties at every depth: two parameter
objects that differ only inside a nested object whose property names are not
top-level names serialize identically, so the distinct calls share one cache
key. -/
theorem makeKey_nested_params_collide :
    c9p1 ≠ c9p2 ∧
    makeKey "acct" "search" (some c9p1) =
      makeKey "acct" "search" (some c9p2) := by
  constructor
  · intro h
    rw [c9p1, c9p2] at h
    injection h with hk hv hr
    injection hv with hfs
    injection hfs with hk2 hv2 hr2
    exact absurd hk2 (by decide)
  · rfl

def c10PlusCache : CacheState Nat :=
  { entries :=
      [("a+b:search:q", { value := 1, expiresAt := 100, createdAt := 0 }),
        ("a+b:labels:list", { value := 2, expiresAt := 100, createdAt := 0 })]
    config := DEFAULT_CACHE_CONFIG
    stats := ⟨0, 0, 0⟩ }

def c10DotCache : CacheState Nat :=
  { entries :=
      [("axb:search:q", { value := 1, expiresAt := 100, createdAt := 0 })]
    config := DEFAULT_CACHE_CONFIG
    stats := ⟨0, 0, 0⟩ }

/-- C10: the account id is interpolated into the invalidation regex without
escaping: for the account `"a+b"` (where `+` becomes a quantifier) the
pattern `^a+b:` matches none of that account's keys, so `invalidateAccount`
removes nothing and returns 0; for the account `"a.b"` (where `.` matches
any character) it removes the entry of the different account `"axb"`. -/
theorem invalidateAccount_unescaped_metachars :
    (invalidateAccount "a+b" c10PlusCache).map
        (fun p => (p.1, p.2.entries.map Prod.fst)) =
      Except.ok (0, ["a+b:search:q", "a+b:labels:list"]) ∧
    (invalidateAccount "a.b" c10DotCache).map
        (fun p => (p.1, p.2.entries.map Prod.fst)) =
      Except.ok (1, ([] : List String)) :=
  ⟨rfl, rfl⟩

/-- A stored bucket is well-formed at time `t`: its token count is
nonnegative and its refill stamp is not in the future. -/
def GoodBucket (t : Nat) (b : BucketState) : Prop :=
  0 ≤ b.tokens ∧ b.lastRefill ≤ t

/-- All stored buckets are well-formed. -/
def BucketInv (st : Nat × BucketMap) : Prop :=
  ∀ id b, st.2 id = some b → GoodBucket st.1 b

lemma refill_good (cfg : ThrottleConfig) (hB : 0 ≤ cfg.bucketSize)
    (hR : 0 ≤ cfg.tokensPerSecond) (now : Nat) (b : BucketState)
    (h0 : 0 ≤ b.tokens) (hlr : b.lastRefill ≤ now) :
    0 ≤ (refillTokens cfg now b).tokens ∧
    (refillTokens cfg now b).tokens ≤ cfg.bucketSize ∧
    (refillTokens cfg now b).lastRefill = now := by
  simp only [refillTokens]
  refine ⟨?_, min_le_right _ _, by trivial⟩
  have hcast : (b.lastRefill : ℚ) ≤ (now : ℚ) := by exact_mod_cast hlr
  have helapsed : (0 : ℚ) ≤ ((now : ℚ) - (b.lastRefill : ℚ)) / 1000 :=
    div_nonneg (by linarith) (by norm_num)
  have hnew :
      (0 : ℚ) ≤ ((now : ℚ) - (b.lastRefill : ℚ)) / 1000 * cfg.tokensPerSecond :=
    mul_nonneg helapsed hR
  exact le_min (by linarith) hB

lemma bInv_update {t : Nat} {m : BucketMap} (hinv : BucketInv (t, m))
    (id : String) {b : BucketState} (hb : GoodBucket t b) :
    BucketInv (t, bUpdate m id b) := by
  intro id' b' h
  simp only [bUpdate] at h
  by_cases hid : id' = id
  · rw [if_pos hid] at h
    cases h
    exact hb
  · rw [if_neg hid] at h
    exact hinv id' b' h

lemma bInv_mono {t t' : Nat} {m : BucketMap} (h : t ≤ t')
    (hinv : BucketInv (t, m)) : BucketInv (t', m) :=
  fun id b hb => ⟨(hinv id b hb).1, le_trans (hinv id b hb).2 h⟩

lemma bInv_getBucket (cfg : ThrottleConfig) (hB : 0 ≤ cfg.bucketSize)
    {t : Nat} {m : BucketMap} (hinv : BucketInv (t, m)) (id : String) :
    GoodBucket t (getBucket cfg t m id).1 ∧
    BucketInv (t, (getBucket cfg t m id).2) := by
  cases hm : m id with
  | some b =>
    simp only [getBucket, hm]
    exact ⟨hinv id b hm, hinv⟩
  | none =>
    simp only [getBucket, hm]
    exact ⟨⟨hB, le_refl t⟩, bInv_update hinv id ⟨hB, le_refl t⟩⟩

lemma tryConsume_inv (cfg : ThrottleConfig) (hB : 0 ≤ cfg.bucketSize)
    (hR : 0 ≤ cfg.tokensPerSecond) {t : Nat} {m : BucketMap}
    (hinv : BucketInv (t, m)) (id : String) (c : ℚ) :
    BucketInv (t, (tryConsume cfg t m id c).2) := by
  obtain ⟨hg, hinv2⟩ := bInv_getBucket cfg hB hinv id
  obtain ⟨h0, _, hlr⟩ :=
    refill_good cfg hB hR t (getBucket cfg t m id).1 hg.1 hg.2
  simp only [tryConsume]
  by_cases hc : c ≤ (refillTokens cfg t (getBucket cfg t m id).1).tokens
  · rw [if_pos hc]
    exact bInv_update hinv2 id ⟨by simpa using sub_nonneg.mpr hc, le_of_eq hlr⟩
  · rw [if_neg hc]
    exact bInv_update hinv2 id ⟨h0, le_of_eq hlr⟩

lemma getWaitTime_inv (cfg : ThrottleConfig) (hB : 0 ≤ cfg.bucketSize)
    (hR : 0 ≤ cfg.tokensPerSecond) {t : Nat} {m : BucketMap}
    (hinv : BucketInv (t, m)) (id : String) (c : ℚ) :
    BucketInv (t, (getWaitTime cfg t m id c).2) := by
  obtain ⟨hg, hinv2⟩ := bInv_getBucket cfg hB hinv id
  obtain ⟨h0, _, hlr⟩ :=
    refill_good cfg hB hR t (getBucket cfg t m id).1 hg.1 hg.2
  simp only [getWaitTime]
  by_cases hc : c ≤ (refillTokens cfg t (getBucket cfg t m id).1).tokens
  · rw [if_pos hc]
    exact bInv_update hinv2 id ⟨h0, le_of_eq hlr⟩
  · rw [if_neg hc]
    exact bInv_update hinv2 id ⟨h0, le_of_eq hlr⟩

lemma getTokenCount_inv (cfg : ThrottleConfig) (hB : 0 ≤ cfg.bucketSize)
    (hR : 0 ≤ cfg.tokensPerSecond) {t : Nat} {m : BucketMap}
    (hinv : BucketInv (t, m)) (id : String) :
    BucketInv (t, (getTokenCount cfg t m id).2) := by
  obtain ⟨hg, hinv2⟩ := bInv_getBucket cfg hB hinv id
  obtain ⟨h0, _, hlr⟩ :=
    refill_good cfg hB hR t (getBucket cfg t m id).1 hg.1 hg.2
  simp only [getTokenCount]
  exact bInv_update hinv2 id ⟨h0, le_of_eq hlr⟩

lemma waitAndConsume_inv (cfg : ThrottleConfig) (hB : 0 ≤ cfg.bucketSize)
    (hR : 0 ≤ cfg.tokensPerSecond) {t : Nat} {m : BucketMap}
    (hinv : BucketInv (t, m)) (id : String) (c : ℚ) :
    BucketInv (waitAndConsume cfg t m id c) := by
  have h1 : BucketInv (t, (getWaitTime cfg t m id c).2) :=
    getWaitTime_inv cfg hB hR hinv id c
  simp only [waitAndConsume]
  set now2 : Nat :=
    if 0 < (getWaitTime cfg t m id c).1 then
      t + (getWaitTime cfg t m id c).1.toNat
    else t with hnow2
  have ht2 : t ≤ now2 := by
    rw [hnow2]
    split <;> omega
  have h2 : BucketInv (now2, (getWaitTime cfg t m id c).2) := bInv_mono ht2 h1
  obtain ⟨hg, hinv3⟩ := bInv_getBucket cfg hB h2 id
  obtain ⟨h0, _, hlr⟩ :=
    refill_good cfg hB hR now2 (getBucket cfg now2 (getWaitTime cfg t m id c).2 id).1
      hg.1 hg.2
  exact bInv_update hinv3 id ⟨le_max_left 0 _, le_of_eq hlr⟩

lemma runOp_inv (cfg : ThrottleConfig) (hB : 0 ≤ cfg.bucketSize)
    (hR : 0 ≤ cfg.tokensPerSecond) (st : Nat × BucketMap) (op : ThrottleOp)
    (hinv : BucketInv st) : BucketInv (runOp cfg st op) := by
  obtain ⟨t, m⟩ := st
  cases op with
  | tryConsumeOp id c =>
    exact tryConsume_inv cfg hB hR hinv id c
  | getWaitTimeOp id c =>
    exact getWaitTime_inv cfg hB hR hinv id c
  | waitAndConsumeOp id c =>
    exact waitAndConsume_inv cfg hB hR hinv id c
  | getTokenCountOp id =>
    exact getTokenCount_inv cfg hB hR hinv id
  | resetOp id =>
    intro id' b h
    simp only [runOp, bucketReset] at h
    by_cases hid : id' = id
    · rw [if_pos hid] at h
      exact absurd h (by simp)
    · rw [if_neg hid] at h
      exact hinv id' b h
  | advanceOp ms =>
    exact bInv_mono (Nat.le_add_right t ms) hinv

lemma runTrace_inv (cfg : ThrottleConfig) (hB : 0 ≤ cfg.bucketSize)
    (hR : 0 ≤ cfg.tokensPerSecond) :
    ∀ (ops : List ThrottleOp) (st : Nat × BucketMap), BucketInv st →
      BucketInv (ops.foldl (runOp cfg) st) := by
  intro ops
  induction ops with
  | nil => intro st h; exact h
  | cons o rest ih =>
    intro st h
    exact ih (runOp cfg st o) (runOp_inv cfg hB hR st o h)

/-- C2: for every configured throttle (nonnegative rate and capacity) and
every finite interleaving of `tryConsume` / `waitAndConsume` / `getWaitTime`
/ `getTokenCount` / `reset` calls and clock advances, the token level
reported by `getTokenCount` for every account key stays within
`[0, bucketSize]`. -/
theorem tokenBucket_level_bounds (cfg : ThrottleConfig)
    (hB : 0 ≤ cfg.bucketSize) (hR : 0 ≤ cfg.tokensPerSecond)
    (ops : List ThrottleOp) (id : String) :
    0 ≤ (getTokenCount cfg (runTrace cfg ops).1 (runTrace cfg ops).2 id).1 ∧
    (getTokenCount cfg (runTrace cfg ops).1 (runTrace cfg ops).2 id).1 ≤
      cfg.bucketSize := by
  have hinit : BucketInv (0, fun _ => none) := by
    intro id' b h
    exact absurd h (by simp)
  have hinv : BucketInv (runTrace cfg ops) :=
    runTrace_inv cfg hB hR ops (0, fun _ => none) hinit
  have hinv' : BucketInv ((runTrace cfg ops).1, (runTrace cfg ops).2) := hinv
  obtain ⟨hg, _⟩ := bInv_getBucket cfg hB hinv' id
  obtain ⟨h0, hle, _⟩ :=
    refill_good cfg hB hR (runTrace cfg ops).1
      (getBucket cfg (runTrace cfg ops).1 (runTrace cfg ops).2 id).1 hg.1 hg.2
  exact ⟨h0, hle⟩

def opsW : List ThrottleOp :=
  [.tryConsumeOp "a" 1, .advanceOp 4, .waitAndConsumeOp "a" 2,
    .getWaitTimeOp "a" 3, .resetOp "b", .getTokenCountOp "a"]

/-- Witness for C2: the default config (rate 250/s, capacity 250) and a
concrete interleaving touching two account keys. -/
theorem tokenBucket_level_bounds_witness :
    0 ≤ DEFAULT_THROTTLE_CONFIG.bucketSize ∧
    0 ≤ DEFAULT_THROTTLE_CONFIG.tokensPerSecond ∧
    (0 ≤
      (getTokenCount DEFAULT_THROTTLE_CONFIG
        (runTrace DEFAULT_THROTTLE_CONFIG opsW).1
        (runTrace DEFAULT_THROTTLE_CONFIG opsW).2 "a").1 ∧
    (getTokenCount DEFAULT_THROTTLE_CONFIG
        (runTrace DEFAULT_THROTTLE_CONFIG opsW).1
        (runTrace DEFAULT_THROTTLE_CONFIG opsW).2 "a").1 ≤
      DEFAULT_THROTTLE_CONFIG.bucketSize) :=
  ⟨by norm_num [DEFAULT_THROTTLE_CONFIG],
    by norm_num [DEFAULT_THROTTLE_CONFIG],
    tokenBucket_level_bounds DEFAULT_THROTTLE_CONFIG
      (by norm_num [DEFAULT_THROTTLE_CONFIG])
      (by norm_num [DEFAULT_THROTTLE_CONFIG]) opsW "a"⟩

end GMcp
